/-
Verification of the realtime connection / message fan-out subsystem of WeUnion
(src/server/socket/socketHandler.js) against its natural-language specification.

The JavaScript `Map`s (`connectedUsers`, `userSockets`, `connectionAttempts`)
are embedded as association lists over `Nat` keys; `Map.get` is `alookup`,
`Map.set` is `aset` and `Map.delete` is `aerase`.  Database tables are lists of
rows; each socket.io handler becomes a pure function from the incoming state to
the new state plus the list of emitted events.
-/
import Mathlib

set_option autoImplicit false

namespace WeUnion

/-- Association-list lookup, modelling JavaScript `Map.get` (keyed by `Nat`). -/
def alookup {β : Type} : List (Nat × β) → Nat → Option β
  | [], _ => none
  | p :: ps, k => if p.1 = k then some p.2 else alookup ps k

/-- Modelling `Map.delete`: drop every pair stored under the key. -/
def aerase {β : Type} (l : List (Nat × β)) (k : Nat) : List (Nat × β) :=
  l.filter (fun p => p.1 != k)

/-- Modelling `Map.set`: the key now maps to exactly this value. -/
def aset {β : Type} (l : List (Nat × β)) (k : Nat) (v : β) : List (Nat × β) :=
  (k, v) :: aerase l k

theorem alookup_cons {β : Type} (p : Nat × β) (ps : List (Nat × β)) (k : Nat) :
    alookup (p :: ps) k = if p.1 = k then some p.2 else alookup ps k := rfl

theorem aerase_cons {β : Type} (p : Nat × β) (ps : List (Nat × β)) (k : Nat) :
    aerase (p :: ps) k = if p.1 = k then aerase ps k else p :: aerase ps k := by
  by_cases h : p.1 = k <;> simp [aerase, List.filter_cons, h]

theorem alookup_aerase_self {β : Type} (l : List (Nat × β)) (k : Nat) :
    alookup (aerase l k) k = none := by
  induction l with
  | nil => rfl
  | cons p ps ih =>
    rw [aerase_cons]
    by_cases h : p.1 = k
    · rw [if_pos h]; exact ih
    · rw [if_neg h, alookup_cons, if_neg h]; exact ih

theorem alookup_aerase_ne {β : Type} (l : List (Nat × β)) {k k2 : Nat} (h : k2 ≠ k) :
    alookup (aerase l k) k2 = alookup l k2 := by
  induction l with
  | nil => rfl
  | cons p ps ih =>
    rw [aerase_cons]
    by_cases hp : p.1 = k
    · have hpk2 : p.1 ≠ k2 := by rw [hp]; exact Ne.symm h
      rw [if_pos hp, ih, alookup_cons, if_neg hpk2]
    · rw [if_neg hp, alookup_cons, alookup_cons]
      by_cases hk2 : p.1 = k2
      · rw [if_pos hk2, if_pos hk2]
      · rw [if_neg hk2, if_neg hk2, ih]

theorem alookup_aset_self {β : Type} (l : List (Nat × β)) (k : Nat) (v : β) :
    alookup (aset l k v) k = some v := by
  simp [aset, alookup]

theorem alookup_aset_ne {β : Type} (l : List (Nat × β)) {k k2 : Nat} (v : β) (h : k2 ≠ k) :
    alookup (aset l k v) k2 = alookup l k2 := by
  have hk : k ≠ k2 := fun hc => h hc.symm
  simp only [aset, alookup, hk, if_neg]
  exact alookup_aerase_ne l h

theorem mem_aerase {β : Type} {l : List (Nat × β)} {k : Nat} {p : Nat × β} :
    p ∈ aerase l k ↔ p ∈ l ∧ p.1 ≠ k := by
  simp [aerase, List.mem_filter]

theorem mem_of_alookup_eq {β : Type} {l : List (Nat × β)} {k : Nat} {v : β}
    (h : alookup l k = some v) : (k, v) ∈ l := by
  induction l with
  | nil => simp [alookup] at h
  | cons p ps ih =>
    by_cases hp : p.1 = k
    · simp only [alookup, hp, if_pos, Option.some.injEq] at h
      cases p with
      | mk a b =>
        simp only at hp h
        subst hp; subst h
        exact List.mem_cons_self _ _
    · simp only [alookup, hp, if_neg, if_false] at h
      exact List.mem_cons_of_mem _ (ih h)

theorem alookup_eq_of_mem {β : Type} {l : List (Nat × β)} {p : Nat × β}
    (hn : (l.map Prod.fst).Nodup) (hp : p ∈ l) : alookup l p.1 = some p.2 := by
  induction l with
  | nil => simp at hp
  | cons q qs ih =>
    simp only [List.map_cons, List.nodup_cons] at hn
    rcases List.mem_cons.mp hp with h | h
    · subst h; simp [alookup]
    · have hq : q.1 ≠ p.1 := by
        intro hc
        exact hn.1 (hc ▸ List.mem_map_of_mem Prod.fst h)
      simp [alookup, hq]
      exact ih hn.2 h

theorem keys_aerase_nodup {β : Type} {l : List (Nat × β)} (k : Nat)
    (hn : (l.map Prod.fst).Nodup) : ((aerase l k).map Prod.fst).Nodup := by
  have hsub : (aerase l k).Sublist l := List.filter_sublist l
  exact (hsub.map Prod.fst).nodup hn

theorem not_mem_keys_aerase {β : Type} (l : List (Nat × β)) (k : Nat) :
    k ∉ (aerase l k).map Prod.fst := by
  intro h
  rcases List.mem_map.mp h with ⟨p, hp, hk⟩
  exact (mem_aerase.mp hp).2 hk

theorem keys_aset_nodup {β : Type} {l : List (Nat × β)} (k : Nat) (v : β)
    (hn : (l.map Prod.fst).Nodup) : ((aset l k v).map Prod.fst).Nodup := by
  simp only [aset, List.map_cons, List.nodup_cons]
  exact ⟨not_mem_keys_aerase l k, keys_aerase_nodup k hn⟩

theorem eq_of_mem_keys_nodup {β : Type} {l : List (Nat × β)} {p q : Nat × β}
    (hn : (l.map Prod.fst).Nodup) (hp : p ∈ l) (hq : q ∈ l) (hk : p.1 = q.1) : p = q := by
  have h1 := alookup_eq_of_mem hn hp
  have h2 := alookup_eq_of_mem hn hq
  rw [hk] at h1
  rw [h1] at h2
  have : p.2 = q.2 := by injection h2
  cases p; cases q
  simp_all

/-! ## Session Registry (socketHandler.js lines 5-6, 58-68, 102-106, 175-176, 179)

`connectedUsers` maps a user id to the socket id of the connection registered
for that user; `userSockets` maps a socket id to the user info stored for it.
`evicted` records the socket ids on which the server called
`socket.disconnect(true)` (a forced close). -/

/-- The `{ userId, username }` record stored in `userSockets` (lines 103-106). -/
structure UserInfo where
  userId : Nat
  username : String
deriving DecidableEq, Repr

/-- The two in-memory maps of the Session Registry plus the log of forced
disconnects issued by the eviction path. -/
structure RegState where
  connectedUsers : List (Nat × Nat)
  userSockets : List (Nat × UserInfo)
  evicted : List Nat
deriving DecidableEq, Repr

def RegState.empty : RegState := ⟨[], [], []⟩

/-- Middleware lines 58-68: if the user already has a registered connection with
a different socket id, force-disconnect it and delete both of its map entries. -/
def evictExisting (st : RegState) (userId socketId : Nat) : RegState :=
  match alookup st.connectedUsers userId with
  | some existing =>
    if existing ≠ socketId then
      { connectedUsers := aerase st.connectedUsers userId
        userSockets := aerase st.userSockets existing
        evicted := existing :: st.evicted }
    else st
  | none => st

/-- Connection handler lines 102-106: store the new connection in both maps. -/
def registerConn (st : RegState) (userId socketId : Nat) (username : String) : RegState :=
  { st with
      connectedUsers := aset st.connectedUsers userId socketId
      userSockets := aset st.userSockets socketId ⟨userId, username⟩ }

/-- Disconnect handler lines 175-176: `connectedUsers.delete(socket.userId)` and
`userSockets.delete(socket.id)` — both deletes are unconditional. -/
def removeFromMaps (st : RegState) (userId socketId : Nat) : RegState :=
  { st with
      connectedUsers := aerase st.connectedUsers userId
      userSockets := aerase st.userSockets socketId }

/-- Line 179: `Array.from(connectedUsers.values()).includes(socket.userId)` —
note that the values of `connectedUsers` are socket ids, not user ids. -/
def hasOtherConnections (st : RegState) (userId : Nat) : Bool :=
  (st.connectedUsers.map (fun p => p.2)).contains userId

/-! ## Connection Admission Controller (lines 8-12, 26-56, 70-78, 91-97) -/

def MAX_ATTEMPTS : Nat := 3
def BLOCK_DURATION : Nat := 10000
def ATTEMPT_WINDOW : Nat := 5000

/-- The per-user record of `connectionAttempts` (line 9 and line 28). -/
structure AttemptRecord where
  count : Nat
  lastAttempt : Nat
  blocked : Bool
deriving DecidableEq, Repr

structure RateLimitResult where
  attempts : List (Nat × AttemptRecord)
  limited : Bool
deriving DecidableEq, Repr

/-- Middleware lines 26-56: the sliding-window rate limiter, run after the token
has decoded.  `limited = true` means the attempt was rejected with the
too-many-attempts error.  The already-blocked rejection (lines 31-33) returns
before any write to the record; all other paths end in
`attempts.lastAttempt = now; connectionAttempts.set(...)` (lines 46-47, 55-56). -/
def rateLimitCheck (attempts : List (Nat × AttemptRecord)) (userId now : Nat) :
    RateLimitResult :=
  let a0 := (alookup attempts userId).getD ⟨0, 0, false⟩
  if a0.blocked ∧ now - a0.lastAttempt < BLOCK_DURATION then
    ⟨attempts, true⟩
  else
    let a1 := if a0.blocked ∧ BLOCK_DURATION ≤ now - a0.lastAttempt then
        { a0 with blocked := false, count := 0 } else a0
    if now - a1.lastAttempt < ATTEMPT_WINDOW then
      let a2 := { a1 with count := a1.count + 1 }
      if MAX_ATTEMPTS < a2.count then
        ⟨aset attempts userId { a2 with blocked := true, lastAttempt := now }, true⟩
      else
        ⟨aset attempts userId { a2 with lastAttempt := now }, false⟩
    else
      ⟨aset attempts userId { a1 with count := 1, lastAttempt := now }, false⟩

/-- Connection handler lines 91-97: a successful connection clears the backoff
state of the attempt record (count 0, blocked false), if a record exists. -/
def connectionReset (attempts : List (Nat × AttemptRecord)) (userId : Nat) :
    List (Nat × AttemptRecord) :=
  match alookup attempts userId with
  | some a => aset attempts userId { a with count := 0, blocked := false }
  | none => attempts

inductive AdmitOutcome where
  | admitted
  | rejectedRateLimited
  | rejectedInvalidSession
deriving DecidableEq, Repr

structure AdmitResult where
  outcome : AdmitOutcome
  attempts : List (Nat × AttemptRecord)
  reg : RegState
deriving DecidableEq, Repr

/-- One whole connection attempt whose token decodes, run to completion with no
interleaving: middleware lines 26-82 (rate limit, eviction of an existing
connection, then the `user_sessions` validity query modelled by `sessionValid`)
followed, when admitted, by the connection handler lines 91-106 (attempt-record
reset and registration). -/
def admitAttempt (attempts : List (Nat × AttemptRecord)) (reg : RegState)
    (userId : Nat) (username : String) (socketId now : Nat) (sessionValid : Bool) :
    AdmitResult :=
  let r := rateLimitCheck attempts userId now
  if r.limited then ⟨.rejectedRateLimited, r.attempts, reg⟩
  else
    let reg1 := evictExisting reg userId socketId
    if sessionValid then
      ⟨.admitted, connectionReset r.attempts userId, registerConn reg1 userId socketId username⟩
    else
      ⟨.rejectedInvalidSession, r.attempts, reg1⟩

/-! ## Event-loop trace model

The middleware suspends at the `user_sessions` query (line 71 `await db.query`);
the synchronous segment before it (rate limit + eviction, lines 26-68) and the
synchronous segment after it (session check, `next()`, registration, lines
76-106) are therefore separate atomic steps of the Node event loop, and the
handshakes of two sockets may interleave at that suspension point.  `pending`
holds the decoded identity of each handshake that has passed the first segment
and is awaiting the query result.  A `disc` event is the disconnect handler of a
registered socket (it fires at most once per socket; for a socket evicted by
`disconnect(true)` it fires during eviction, whose map deletes coincide with
lines 66-67, so it is absorbed into the eviction step). -/

structure LoopState where
  attempts : List (Nat × AttemptRecord)
  reg : RegState
  pending : List (Nat × UserInfo)
deriving DecidableEq, Repr

inductive LoopEvent where
  | mid (userId : Nat) (username : String) (socketId now : Nat)
  | fin (socketId : Nat) (sessionValid : Bool)
  | disc (socketId : Nat)
deriving DecidableEq, Repr

def stepLoop (st : LoopState) : LoopEvent → LoopState
  | .mid userId username socketId now =>
    let r := rateLimitCheck st.attempts userId now
    if r.limited then { st with attempts := r.attempts }
    else
      { attempts := r.attempts
        reg := evictExisting st.reg userId socketId
        pending := aset st.pending socketId ⟨userId, username⟩ }
  | .fin socketId sessionValid =>
    match alookup st.pending socketId with
    | none => st
    | some info =>
      let st1 := { st with pending := aerase st.pending socketId }
      if sessionValid then
        { st1 with
            attempts := connectionReset st1.attempts info.userId
            reg := registerConn st1.reg info.userId socketId info.username }
      else st1
  | .disc socketId =>
    match alookup st.reg.userSockets socketId with
    | none => st
    | some info => { st with reg := removeFromMaps st.reg info.userId socketId }

def runLoop (st : LoopState) (events : List LoopEvent) : LoopState :=
  events.foldl stepLoop st

def LoopState.start : LoopState := ⟨[], RegState.empty, []⟩

/-- An admission that runs atomically with respect to the registry: its two
synchronous segments execute back to back, with no other handshake for the
same user interleaved at the suspension point. -/
inductive AtomicEvent where
  | admitConn (userId : Nat) (username : String) (socketId now : Nat) (sessionValid : Bool)
  | disc (socketId : Nat)
deriving DecidableEq, Repr

def stepAtomic (st : LoopState) : AtomicEvent → LoopState
  | .admitConn userId username socketId now sessionValid =>
    stepLoop (stepLoop st (.mid userId username socketId now)) (.fin socketId sessionValid)
  | .disc socketId => stepLoop st (.disc socketId)

/-! ## Registry invariants -/

/-- Keys of both maps are unique (they are JavaScript `Map`s). -/
def regKeysOk (st : RegState) : Prop :=
  (st.connectedUsers.map Prod.fst).Nodup ∧ (st.userSockets.map Prod.fst).Nodup

/-- The two directions of the Session Registry agree. -/
def regConsistent (st : RegState) : Prop :=
  (∀ p ∈ st.connectedUsers, (alookup st.userSockets p.2).map UserInfo.userId = some p.1) ∧
  (∀ q ∈ st.userSockets, alookup st.connectedUsers q.2.userId = some q.1)

def regInv (st : RegState) : Prop := regKeysOk st ∧ regConsistent st

/-- At most one connection entry per user: no two `userSockets` entries carry
the same user id (and `connectedUsers`, keyed by user id, has unique keys). -/
def atMostOnePerUser (st : RegState) : Prop :=
  (st.userSockets.map (fun q => q.2.userId)).Nodup ∧
  (st.connectedUsers.map Prod.fst).Nodup

/-- A sequence of complete connection attempts for one user, each given by
(socketId, now, sessionValid), returning the outcome of each. -/
def admitOutcomes (attempts : List (Nat × AttemptRecord)) (reg : RegState) (userId : Nat)
    (username : String) : List (Nat × Nat × Bool) → List AdmitOutcome
  | [] => []
  | (socketId, now, sv) :: rest =>
    let r := admitAttempt attempts reg userId username socketId now sv
    r.outcome :: admitOutcomes r.attempts r.reg userId username rest

/-- The final attempt/registry state after a sequence of complete connection
attempts for one user. -/
def admitFold (attempts : List (Nat × AttemptRecord)) (reg : RegState) (userId : Nat)
    (username : String) : List (Nat × Nat × Bool) → List (Nat × AttemptRecord) × RegState
  | [] => (attempts, reg)
  | (socketId, now, sv) :: rest =>
    let r := admitAttempt attempts reg userId username socketId now sv
    admitFold r.attempts r.reg userId username rest

/-! ## Store (database) model

Rows of the tables touched by the handlers, with the `SERIAL` message id
modelled by `nextMessageId` and `CURRENT_TIMESTAMP` / `NOW()` by `clock`. -/

/-- Display fields selected at lines 250-253. -/
structure SenderInfo where
  username : String
  displayName : String
  avatarUrl : String
deriving DecidableEq, Repr

/-- A row of `messages` (insert at lines 241-245). -/
structure MessageRow where
  id : Nat
  conversationId : Nat
  senderId : Nat
  content : String
  messageType : String
  replyTo : Option Nat
  createdAt : Nat
deriving DecidableEq, Repr

/-- A row of `conversations`: its optional `group_id` and its `updated_at`. -/
structure ConversationRow where
  groupId : Option Nat
  updatedAt : Nat
deriving DecidableEq, Repr

/-- A row of `contacts` (used by `broadcastUserStatus`, lines 311-319). -/
structure ContactRow where
  userId : Nat
  contactId : Nat
  status : String
deriving DecidableEq, Repr

structure Db where
  conversations : List (Nat × ConversationRow)
  conversationParticipants : List (Nat × Nat)
  groupMembers : List (Nat × Nat)
  messages : List MessageRow
  messageReads : List (Nat × Nat)
  users : List (Nat × SenderInfo)
  userStatus : List (Nat × String)
  contacts : List ContactRow
  nextMessageId : Nat
  clock : Nat
deriving DecidableEq, Repr

def Db.empty : Db := ⟨[], [], [], [], [], [], [], [], 1, 0⟩

/-! ## Outbound events -/

/-- The payload broadcast as `new_message` (lines 257-270). -/
structure MessagePayload where
  id : Nat
  conversationId : Nat
  senderId : Nat
  senderUsername : String
  senderDisplayName : String
  senderAvatarUrl : String
  content : String
  messageType : String
  replyTo : Option Nat
  createdAt : Nat
deriving DecidableEq, Repr

inductive Payload where
  | errorMsg (message : String)
  | newMessage (m : MessagePayload)
  | messagesRead (userId : Nat) (messageIds : List Nat) (conversationId : Nat)
  | statusChange (userId : Nat) (status : String)
deriving DecidableEq, Repr

/-- One `emit` call: either to a single socket (`socket.emit` / `io.to(socketId)`)
or to a conversation room, with the sending socket excluded when the code uses
`socket.to(room)` rather than `io.to(room)`. -/
inductive EmitCall where
  | direct (socketId : Nat) (p : Payload)
  | toRoom (conversationId : Nat) (excluded : Option Nat) (p : Payload)
deriving DecidableEq, Repr

/-- Room membership: which socket ids are subscribed to each conversation room. -/
def roomSubscribers (subs : List (Nat × List Nat)) (conversationId : Nat) : List Nat :=
  (alookup subs conversationId).getD []

/-- The per-connection deliveries produced by one emit call. -/
def deliveries (subs : List (Nat × List Nat)) : EmitCall → List (Nat × Payload)
  | .direct s p => [(s, p)]
  | .toRoom c none p => (roomSubscribers subs c).map (fun s => (s, p))
  | .toRoom c (some ex) p =>
    ((roomSubscribers subs c).filter (fun s => s != ex)).map (fun s => (s, p))

def deliveriesAll (subs : List (Nat × List Nat)) (calls : List EmitCall) :
    List (Nat × Payload) :=
  (calls.map (deliveries subs)).flatten

/-! ## Message Router (lines 217-280) -/

/-- The access-check query of lines 227-233: a row exists iff the conversation
exists and the user is one of its participants, or the conversation has a group
and the user is a member of that group. -/
def hasConversationAccess (db : Db) (conversationId userId : Nat) : Bool :=
  match alookup db.conversations conversationId with
  | none => false
  | some conv =>
    db.conversationParticipants.any (fun p => p.1 == conversationId && p.2 == userId) ||
    (match conv.groupId with
     | some g => db.groupMembers.any (fun m => m.1 == g && m.2 == userId)
     | none => false)

/-- Lines 276-279: `UPDATE conversations SET updated_at = CURRENT_TIMESTAMP`. -/
def touchConversation (convs : List (Nat × ConversationRow)) (conversationId now : Nat) :
    List (Nat × ConversationRow) :=
  convs.map (fun p => if p.1 == conversationId then (p.1, { p.2 with updatedAt := now }) else p)

/-- `handleSendMessage` (lines 218-280).  A `conversationId` of `none` or `0`
and an empty `content` are the falsy inputs of the line 221 guard.  After the
insert, a missing sender row makes line 262 throw, which the catch at lines
128-131 turns into a generic error to the sender (the message row stays). -/
def handleSendMessage (db : Db) (socketId userId : Nat) (conversationId : Option Nat)
    (content : String) (messageType : String) (replyTo : Option Nat) :
    Db × List EmitCall :=
  match conversationId with
  | none => (db, [EmitCall.direct socketId (Payload.errorMsg "Conversation ID and content are required")])
  | some convId =>
    if convId == 0 || content == "" then
      (db, [EmitCall.direct socketId (Payload.errorMsg "Conversation ID and content are required")])
    else if hasConversationAccess db convId userId then
      let msg : MessageRow :=
        ⟨db.nextMessageId, convId, userId, content, messageType, replyTo, db.clock⟩
      let db1 := { db with
        messages := db.messages ++ [msg]
        nextMessageId := db.nextMessageId + 1 }
      match alookup db1.users userId with
      | none => (db1, [EmitCall.direct socketId (Payload.errorMsg "Failed to send message")])
      | some sender =>
        let payload : MessagePayload :=
          ⟨msg.id, convId, userId, sender.username, sender.displayName, sender.avatarUrl,
            content, messageType, replyTo, msg.createdAt⟩
        let db2 := { db1 with conversations := touchConversation db1.conversations convId db1.clock }
        (db2, [EmitCall.toRoom convId none (Payload.newMessage payload)])
    else
      (db, [EmitCall.direct socketId (Payload.errorMsg "Access denied to this conversation")])

/-! ## Read-Receipt Processor (lines 282-305) -/

/-- The loop at lines 291-297.  Each `INSERT ... ON CONFLICT (message_id,
user_id) DO NOTHING` adds the pair unless it is already present; an id with no
`messages` row violates the foreign key on `message_reads.message_id`, throwing
out of the loop (the second component is `false` in that case and the ids after
the offending one are not processed). -/
def insertReadsLoop (msgs : List MessageRow) (reads : List (Nat × Nat)) (userId : Nat) :
    List Nat → List (Nat × Nat) × Bool
  | [] => (reads, true)
  | m :: rest =>
    if msgs.any (fun r => r.id == m) then
      let reads1 := if (m, userId) ∈ reads then reads else reads ++ [(m, userId)]
      insertReadsLoop msgs reads1 userId rest
    else (reads, false)

/-- The number of rows of the read-marker table equal to a given (message, user)
pair. -/
def rowCount (reads : List (Nat × Nat)) (x : Nat × Nat) : Nat :=
  (reads.filter (fun y => decide (y = x))).length

/-- `handleMarkMessagesRead` (lines 283-305).  Malformed input (line 286 guard:
falsy `conversationId`, or `messageIds` not an array) is a silent no-op.  The
broadcast (lines 300-304) goes to the other subscribers of the conversation
room and is skipped when the loop threw (the error is caught and only logged at
lines 151-157). -/
def handleMarkMessagesRead (db : Db) (socketId userId : Nat) (conversationId : Option Nat)
    (messageIds : Option (List Nat)) : Db × List EmitCall :=
  match conversationId, messageIds with
  | some convId, some ids =>
    if convId == 0 then (db, [])
    else
      let r := insertReadsLoop db.messages db.messageReads userId ids
      let db1 := { db with messageReads := r.1 }
      if r.2 then
        (db1, [EmitCall.toRoom convId (some socketId) (Payload.messagesRead userId ids convId)])
      else (db1, [])
  | _, _ => (db, [])

/-! ## Presence Broadcaster and disconnect handler (lines 170-189, 307-334) -/

/-- The `SELECT DISTINCT ... FROM contacts` query of lines 311-319: the other
end of every accepted contact row involving the user. -/
def acceptedContactIds (db : Db) (userId : Nat) : List Nat :=
  ((db.contacts.filter (fun c => (c.userId == userId || c.contactId == userId) &&
      c.status == "accepted")).map
    (fun c => if c.userId == userId then c.contactId else c.userId)).dedup

/-- `broadcastUserStatus` (lines 308-334): emit `user_status_change` to the
registered socket of each accepted contact that is currently connected. -/
def broadcastUserStatus (db : Db) (reg : RegState) (userId : Nat) (status : String) :
    List EmitCall :=
  (acceptedContactIds db userId).filterMap (fun cid =>
    (alookup reg.connectedUsers cid).map
      (fun sid => EmitCall.direct sid (Payload.statusChange userId status)))

/-- Lines 109 and 182: `UPDATE users SET status = $1 WHERE id = $2 AND status != $1`. -/
def setUserStatus (statuses : List (Nat × String)) (userId : Nat) (status : String) :
    List (Nat × String) :=
  statuses.map (fun p => if p.1 == userId then (p.1, status) else p)

/-- The disconnect handler (lines 170-189): delete both map entries, then flip
the persisted status to offline and broadcast it unless
`hasOtherConnections` holds for the post-delete registry. -/
def disconnectHandler (db : Db) (reg : RegState) (socketId userId : Nat) :
    Db × RegState × List EmitCall :=
  let reg1 := removeFromMaps reg userId socketId
  if hasOtherConnections reg1 userId then (db, reg1, [])
  else
    let db1 := { db with userStatus := setUserStatus db.userStatus userId "offline" }
    (db1, reg1, broadcastUserStatus db1 reg1 userId "offline")

/-! ## Registry invariant lemmas -/

theorem evictExisting_regInv {st : RegState} (userId socketId : Nat) (h : regInv st) :
    regInv (evictExisting st userId socketId) := by
  obtain ⟨⟨hkc, hks⟩, h1, h2⟩ := h
  unfold evictExisting
  cases hA : alookup st.connectedUsers userId with
  | none => exact ⟨⟨hkc, hks⟩, h1, h2⟩
  | some A =>
    dsimp only
    by_cases hne : A ≠ socketId
    · rw [if_pos hne]
      have hmemA : (userId, A) ∈ st.connectedUsers := mem_of_alookup_eq hA
      have hAu : (alookup st.userSockets A).map UserInfo.userId = some userId := h1 _ hmemA
      refine ⟨⟨keys_aerase_nodup _ hkc, keys_aerase_nodup _ hks⟩, ?_, ?_⟩
      · intro p hp
        obtain ⟨hpl, hpu⟩ := mem_aerase.mp hp
        have hpA : p.2 ≠ A := by
          intro hc
          have hmap := h1 _ hpl
          rw [hc] at hmap
          rw [hAu] at hmap
          have h3 : userId = p.1 := by injection hmap
          exact hpu h3.symm
        rw [alookup_aerase_ne _ hpA]
        exact h1 _ hpl
      · intro q hq
        obtain ⟨hql, hqA⟩ := mem_aerase.mp hq
        have hqu : q.2.userId ≠ userId := by
          intro hc
          have hmap := h2 _ hql
          rw [hc, hA] at hmap
          have h3 : A = q.1 := by injection hmap
          exact hqA h3.symm
        rw [alookup_aerase_ne _ hqu]
        exact h2 _ hql
    · rw [if_neg hne]
      exact ⟨⟨hkc, hks⟩, h1, h2⟩

theorem evictExisting_lookups {st : RegState} {socketId : Nat} (userId : Nat) (h : regInv st)
    (hs : alookup st.userSockets socketId = none) :
    alookup (evictExisting st userId socketId).connectedUsers userId = none ∧
    alookup (evictExisting st userId socketId).userSockets socketId = none := by
  obtain ⟨⟨hkc, hks⟩, h1, h2⟩ := h
  unfold evictExisting
  cases hA : alookup st.connectedUsers userId with
  | none => exact ⟨hA, hs⟩
  | some A =>
    dsimp only
    have hmemA : (userId, A) ∈ st.connectedUsers := mem_of_alookup_eq hA
    have hAu : (alookup st.userSockets A).map UserInfo.userId = some userId := h1 _ hmemA
    have hne : A ≠ socketId := by
      intro hc
      rw [hc, hs] at hAu
      exact Option.noConfusion hAu
    rw [if_pos hne]
    refine ⟨alookup_aerase_self _ _, ?_⟩
    rw [alookup_aerase_ne _ (fun hc => hne hc.symm)]
    exact hs

theorem registerConn_regInv {st : RegState} (userId socketId : Nat) (username : String)
    (h : regInv st) (hu : alookup st.connectedUsers userId = none)
    (hs : alookup st.userSockets socketId = none) :
    regInv (registerConn st userId socketId username) := by
  obtain ⟨⟨hkc, hks⟩, h1, h2⟩ := h
  unfold registerConn
  refine ⟨⟨keys_aset_nodup _ _ hkc, keys_aset_nodup _ _ hks⟩, ?_, ?_⟩
  · intro p hp
    rcases List.mem_cons.mp hp with hhead | htail
    · subst hhead
      rw [alookup_aset_self]
      rfl
    · obtain ⟨hpl, hpu⟩ := mem_aerase.mp htail
      have hpS : p.2 ≠ socketId := by
        intro hc
        have := h1 _ hpl
        rw [hc, hs] at this
        exact Option.noConfusion this
      rw [alookup_aset_ne _ _ hpS]
      exact h1 _ hpl
  · intro q hq
    rcases List.mem_cons.mp hq with hhead | htail
    · subst hhead
      simp only [alookup_aset_self]
    · obtain ⟨hql, hqS⟩ := mem_aerase.mp htail
      have hqu : q.2.userId ≠ userId := by
        intro hc
        have := h2 _ hql
        rw [hc, hu] at this
        exact Option.noConfusion this
      rw [alookup_aset_ne _ _ hqu]
      exact h2 _ hql

theorem removeFromMaps_regInv {st : RegState} {socketId : Nat} {info : UserInfo}
    (h : regInv st) (hs : alookup st.userSockets socketId = some info) :
    regInv (removeFromMaps st info.userId socketId) := by
  obtain ⟨⟨hkc, hks⟩, h1, h2⟩ := h
  unfold removeFromMaps
  refine ⟨⟨keys_aerase_nodup _ hkc, keys_aerase_nodup _ hks⟩, ?_, ?_⟩
  · intro p hp
    obtain ⟨hpl, hpu⟩ := mem_aerase.mp hp
    have hpS : p.2 ≠ socketId := by
      intro hc
      have hmap := h1 _ hpl
      rw [hc, hs] at hmap
      have : info.userId = p.1 := by injection hmap
      exact hpu this.symm
    rw [alookup_aerase_ne _ hpS]
    exact h1 _ hpl
  · intro q hq
    obtain ⟨hql, hqS⟩ := mem_aerase.mp hq
    have hqu : q.2.userId ≠ info.userId := by
      intro hc
      have hq2 := h2 _ hql
      have hinfo := h2 _ (mem_of_alookup_eq hs)
      rw [hc] at hq2
      rw [hq2] at hinfo
      exact hqS (by injection hinfo)
    rw [alookup_aerase_ne _ hqu]
    exact h2 _ hql

theorem evictExisting_eq {st : RegState} {userId A socketId : Nat}
    (hA : alookup st.connectedUsers userId = some A) (hne : A ≠ socketId) :
    evictExisting st userId socketId =
      ⟨aerase st.connectedUsers userId, aerase st.userSockets A, A :: st.evicted⟩ := by
  unfold evictExisting
  rw [hA]
  dsimp only
  rw [if_pos hne]

theorem stepAtomic_admit_reg (st : LoopState) (userId : Nat) (username : String)
    (socketId now : Nat) (sv : Bool) (hp : alookup st.pending socketId = none) :
    (stepAtomic st (.admitConn userId username socketId now sv)).reg =
      if (rateLimitCheck st.attempts userId now).limited then st.reg
      else if sv then
        registerConn (evictExisting st.reg userId socketId) userId socketId username
      else evictExisting st.reg userId socketId := by
  unfold stepAtomic stepLoop
  by_cases hl : (rateLimitCheck st.attempts userId now).limited = true
  · simp only [hl, if_true, hp]
  · simp only [Bool.not_eq_true] at hl
    simp only [hl, Bool.false_eq_true, if_false, alookup_aset_self]
    cases sv
    · simp
    · simp

theorem regInv_atMostOnePerUser {st : RegState} (h : regInv st) : atMostOnePerUser st := by
  obtain ⟨⟨hkc, hks⟩, h1, h2⟩ := h
  refine ⟨?_, hkc⟩
  have hentries : st.userSockets.Nodup := hks.of_map
  refine List.Nodup.map_on ?_ hentries
  intro x hx y hy hxy
  have hxl := h2 _ hx
  have hyl := h2 _ hy
  rw [hxy] at hxl
  rw [hxl] at hyl
  exact eq_of_mem_keys_nodup hks hx hy (by injection hyl)

/-! ## Theorems -/

/-- C1, counterexample.  Two handshakes for user 1 (sockets 10 and 20) both pass
the middleware segment before either registers — the interleaving the `await` at
line 71 permits.  Both then register: `userSockets` ends with two entries for
user 1, no forced disconnect was issued, and the at-most-one-entry-per-user
invariant is violated, refuting the claim that the prior connection is always
evicted before the new entry is inserted. -/
theorem concurrent_admissions_break_single_session :
    ((runLoop LoopState.start
        [LoopEvent.mid 1 "alice" 10 100000, LoopEvent.mid 1 "alice" 20 100050,
         LoopEvent.fin 10 true, LoopEvent.fin 20 true]).reg.userSockets.map
        (fun q => q.2.userId)) = [1, 1] ∧
    (runLoop LoopState.start
        [LoopEvent.mid 1 "alice" 10 100000, LoopEvent.mid 1 "alice" 20 100050,
         LoopEvent.fin 10 true, LoopEvent.fin 20 true]).reg.evicted = [] ∧
    ¬ atMostOnePerUser (runLoop LoopState.start
        [LoopEvent.mid 1 "alice" 10 100000, LoopEvent.mid 1 "alice" 20 100050,
         LoopEvent.fin 10 true, LoopEvent.fin 20 true]).reg := by
  refine ⟨by decide, by decide, by unfold atMostOnePerUser; decide⟩

/-- C1, amended.  Provided each admission runs atomically with respect to the
registry (its eviction segment and its registration segment execute back to
back, the new socket id being fresh), every step of the system preserves the
registry invariant, so at every instant each user has at most one entry in
either map; and an admission that finds an existing registration for the user
force-disconnects it and removes both of its map entries, the new entry being
inserted afterwards.  (Without the atomicity proviso the property fails — see
the counterexample.) -/
theorem atomic_admission_preserves_single_session :
    (∀ (st : LoopState) (userId : Nat) (username : String) (socketId now : Nat) (sv : Bool),
      regInv st.reg → alookup st.reg.userSockets socketId = none →
      alookup st.pending socketId = none →
      regInv (stepAtomic st (.admitConn userId username socketId now sv)).reg ∧
      atMostOnePerUser (stepAtomic st (.admitConn userId username socketId now sv)).reg) ∧
    (∀ (st : LoopState) (socketId : Nat),
      regInv st.reg →
      regInv (stepAtomic st (.disc socketId)).reg ∧
      atMostOnePerUser (stepAtomic st (.disc socketId)).reg) ∧
    (∀ (st : LoopState) (userId : Nat) (username : String) (socketId now A : Nat),
      regInv st.reg → alookup st.reg.userSockets socketId = none →
      alookup st.pending socketId = none →
      alookup st.reg.connectedUsers userId = some A →
      (rateLimitCheck st.attempts userId now).limited = false →
      A ∈ (stepAtomic st (.admitConn userId username socketId now true)).reg.evicted ∧
      alookup (stepAtomic st (.admitConn userId username socketId now true)).reg.userSockets A =
        none ∧
      alookup (stepAtomic st (.admitConn userId username socketId now
        true)).reg.connectedUsers userId = some socketId ∧
      alookup (stepAtomic st (.admitConn userId username socketId now
        true)).reg.userSockets socketId = some ⟨userId, username⟩) := by
  refine ⟨?_, ?_, ?_⟩
  · intro st userId username socketId now sv hinv hfs hfp
    rw [stepAtomic_admit_reg st userId username socketId now sv hfp]
    by_cases hl : (rateLimitCheck st.attempts userId now).limited = true
    · rw [if_pos hl]
      exact ⟨hinv, regInv_atMostOnePerUser hinv⟩
    · simp only [Bool.not_eq_true] at hl
      rw [hl]
      simp only [Bool.false_eq_true, if_false]
      cases sv
      · simp only [Bool.false_eq_true, if_false]
        have := evictExisting_regInv userId socketId hinv
        exact ⟨this, regInv_atMostOnePerUser this⟩
      · simp only [if_true]
        obtain ⟨hu, hs⟩ := evictExisting_lookups userId hinv hfs
        have h1 := evictExisting_regInv userId socketId hinv
        have h2 := registerConn_regInv userId socketId username h1 hu hs
        exact ⟨h2, regInv_atMostOnePerUser h2⟩
  · intro st socketId hinv
    cases hS : alookup st.reg.userSockets socketId with
    | none =>
      have hred : stepAtomic st (.disc socketId) = st := by
        simp only [stepAtomic, stepLoop, hS]
      rw [hred]
      exact ⟨hinv, regInv_atMostOnePerUser hinv⟩
    | some info =>
      have hred : stepAtomic st (.disc socketId) =
          { st with reg := removeFromMaps st.reg info.userId socketId } := by
        simp only [stepAtomic, stepLoop, hS]
      rw [hred]
      have h2 := removeFromMaps_regInv hinv hS
      exact ⟨h2, regInv_atMostOnePerUser h2⟩
  · intro st userId username socketId now A hinv hfs hfp hA hl
    have hAmem : (userId, A) ∈ st.reg.connectedUsers := mem_of_alookup_eq hA
    have hAu : (alookup st.reg.userSockets A).map UserInfo.userId = some userId :=
      hinv.2.1 _ hAmem
    have hne : A ≠ socketId := by
      intro hc
      rw [hc, hfs] at hAu
      exact Option.noConfusion hAu
    rw [stepAtomic_admit_reg st userId username socketId now true hfp,
      if_neg (by rw [hl]; exact Bool.false_ne_true), if_pos rfl,
      evictExisting_eq hA hne]
    unfold registerConn
    refine ⟨List.mem_cons_self _ _, ?_, ?_, ?_⟩
    · rw [alookup_aset_ne _ _ hne]
      exact alookup_aerase_self _ _
    · exact alookup_aset_self _ _ _
    · exact alookup_aset_self _ _ _

/-- C1, amended, witness: a concrete atomic admission for user 1 on socket 20,
evicting the registered socket 10, keeps the invariant and performs the
eviction before the insertion. -/
theorem atomic_admission_preserves_single_session_witness :
    (regInv (stepAtomic ⟨[], ⟨[(1, 10)], [(10, ⟨1, "alice"⟩)], []⟩, []⟩
        (AtomicEvent.admitConn 1 "alice" 20 100000 true)).reg ∧
      atMostOnePerUser (stepAtomic ⟨[], ⟨[(1, 10)], [(10, ⟨1, "alice"⟩)], []⟩, []⟩
        (AtomicEvent.admitConn 1 "alice" 20 100000 true)).reg) ∧
    (10 ∈ (stepAtomic ⟨[], ⟨[(1, 10)], [(10, ⟨1, "alice"⟩)], []⟩, []⟩
        (AtomicEvent.admitConn 1 "alice" 20 100000 true)).reg.evicted ∧
      alookup (stepAtomic ⟨[], ⟨[(1, 10)], [(10, ⟨1, "alice"⟩)], []⟩, []⟩
        (AtomicEvent.admitConn 1 "alice" 20 100000 true)).reg.userSockets 10 = none ∧
      alookup (stepAtomic ⟨[], ⟨[(1, 10)], [(10, ⟨1, "alice"⟩)], []⟩, []⟩
        (AtomicEvent.admitConn 1 "alice" 20 100000 true)).reg.connectedUsers 1 = some 20 ∧
      alookup (stepAtomic ⟨[], ⟨[(1, 10)], [(10, ⟨1, "alice"⟩)], []⟩, []⟩
        (AtomicEvent.admitConn 1 "alice" 20 100000 true)).reg.userSockets 20 =
        some ⟨1, "alice"⟩) :=
  ⟨atomic_admission_preserves_single_session.1 ⟨[], ⟨[(1, 10)], [(10, ⟨1, "alice"⟩)], []⟩, []⟩
      1 "alice" 20 100000 true
      (by constructor
          · constructor <;> decide
          · constructor
            · intro p hp
              fin_cases hp <;> decide
            · intro q hq
              fin_cases hq <;> decide)
      (by decide) (by decide),
    atomic_admission_preserves_single_session.2.2 ⟨[], ⟨[(1, 10)], [(10, ⟨1, "alice"⟩)], []⟩, []⟩
      1 "alice" 20 100000 10
      (by constructor
          · constructor <;> decide
          · constructor
            · intro p hp
              fin_cases hp <;> decide
            · intro q hq
              fin_cases hq <;> decide)
      (by decide) (by decide) (by decide) (by decide)⟩

/-- C2, counterexample.  Sockets 10 and 20 of user 1 register concurrently (so
the registry maps user 1 to socket 20, the newer registration); the disconnect
handler of socket 10 then fires and deletes `connectedUsers[1]` unconditionally,
clobbering the registration of socket 20 — the claim says a non-matching stored
connection id is never removed. -/
theorem late_disconnect_clobbers_newer_registration :
    alookup (runLoop LoopState.start
        [LoopEvent.mid 1 "alice" 10 100000, LoopEvent.mid 1 "alice" 20 100050,
         LoopEvent.fin 10 true, LoopEvent.fin 20 true]).reg.connectedUsers 1 = some 20 ∧
    alookup (runLoop LoopState.start
        [LoopEvent.mid 1 "alice" 10 100000, LoopEvent.mid 1 "alice" 20 100050,
         LoopEvent.fin 10 true, LoopEvent.fin 20 true,
         LoopEvent.disc 10]).reg.connectedUsers 1 = none := by
  constructor <;> decide

/-- C2, amended: the disconnect handler removes the user_id entry of
`connectedUsers` unconditionally — it never compares the stored connection id
with the id of the disconnecting connection — so when the registry maps the user to
a newer connection B, the late disconnect of an older connection of the same
user still removes the registration of B (while the `userSockets` entry of B
survives, leaving the two directions inconsistent). -/
theorem disconnect_removes_user_entry_unconditionally
    (st : LoopState) (socketId B : Nat) (info : UserInfo)
    (hs : alookup st.reg.userSockets socketId = some info)
    (hB : alookup st.reg.connectedUsers info.userId = some B) (hne : B ≠ socketId) :
    alookup (stepLoop st (.disc socketId)).reg.connectedUsers info.userId = none ∧
    alookup (stepLoop st (.disc socketId)).reg.userSockets B =
      alookup st.reg.userSockets B := by
  have hred : stepLoop st (.disc socketId) =
      { st with reg := removeFromMaps st.reg info.userId socketId } := by
    simp only [stepLoop, hs]
  rw [hred]
  unfold removeFromMaps
  exact ⟨alookup_aerase_self _ _, alookup_aerase_ne _ hne⟩

/-- C2, amended, witness: with socket 20 of user 1 registered and socket 10 of
user 1 disconnecting late, the handler deletes the registration stored for
socket 20 while the `userSockets` entry of socket 20 survives. -/
theorem disconnect_removes_user_entry_unconditionally_witness :
    alookup (stepLoop ⟨[], ⟨[(1, 20)], [(10, ⟨1, "alice"⟩), (20, ⟨1, "alice"⟩)], []⟩, []⟩
      (LoopEvent.disc 10)).reg.connectedUsers 1 = none ∧
    alookup (stepLoop ⟨[], ⟨[(1, 20)], [(10, ⟨1, "alice"⟩), (20, ⟨1, "alice"⟩)], []⟩, []⟩
      (LoopEvent.disc 10)).reg.userSockets 20 =
      alookup ([(10, ⟨1, "alice"⟩), (20, ⟨1, "alice"⟩)] : List (Nat × UserInfo)) 20 :=
  disconnect_removes_user_entry_unconditionally
    ⟨[], ⟨[(1, 20)], [(10, ⟨1, "alice"⟩), (20, ⟨1, "alice"⟩)], []⟩, []⟩
    10 20 ⟨1, "alice"⟩ (by decide) (by decide) (by decide)

/-- C9: an admission attempt whose token decodes but which is then rejected
because the `user_sessions` query finds no valid session (lines 70-78) has
already evicted the previously registered connection A of that user: the eviction at
lines 58-68 runs before the session query, so A has been force-disconnected and
both of its map entries removed, and the rejection does not restore them. -/
theorem rejected_session_attempt_still_evicts
    (attempts : List (Nat × AttemptRecord)) (reg : RegState) (userId : Nat)
    (username : String) (socketId now A : Nat)
    (hA : alookup reg.connectedUsers userId = some A) (hne : A ≠ socketId)
    (hout : (admitAttempt attempts reg userId username socketId now false).outcome =
      AdmitOutcome.rejectedInvalidSession) :
    alookup (admitAttempt attempts reg userId username socketId now
      false).reg.connectedUsers userId = none ∧
    alookup (admitAttempt attempts reg userId username socketId now
      false).reg.userSockets A = none ∧
    A ∈ (admitAttempt attempts reg userId username socketId now false).reg.evicted := by
  by_cases hl : (rateLimitCheck attempts userId now).limited = true
  · exfalso
    unfold admitAttempt at hout
    simp only [hl, if_true] at hout
    exact AdmitOutcome.noConfusion hout
  · simp only [Bool.not_eq_true] at hl
    have hred : (admitAttempt attempts reg userId username socketId now false).reg =
        evictExisting reg userId socketId := by
      unfold admitAttempt
      simp only [hl, Bool.false_eq_true, if_false]
    rw [hred, evictExisting_eq hA hne]
    refine ⟨alookup_aerase_self _ _, ?_, List.mem_cons_self _ _⟩
    exact alookup_aerase_self _ _

/-- C9, witness: socket 10 of user 1 is registered; a fresh attempt on socket 20
with an invalid session is rejected, yet socket 10 has been force-disconnected
and both of its entries removed. -/
theorem rejected_session_attempt_still_evicts_witness :
    alookup (admitAttempt [] ⟨[(1, 10)], [(10, ⟨1, "alice"⟩)], []⟩ 1 "alice" 20 100000
      false).reg.connectedUsers 1 = none ∧
    alookup (admitAttempt [] ⟨[(1, 10)], [(10, ⟨1, "alice"⟩)], []⟩ 1 "alice" 20 100000
      false).reg.userSockets 10 = none ∧
    10 ∈ (admitAttempt [] ⟨[(1, 10)], [(10, ⟨1, "alice"⟩)], []⟩ 1 "alice" 20 100000
      false).reg.evicted :=
  rejected_session_attempt_still_evicts [] ⟨[(1, 10)], [(10, ⟨1, "alice"⟩)], []⟩ 1 "alice"
    20 100000 10 (by decide) (by decide) (by decide)

/-- C3, counterexample.  A user with valid credentials making `MAX_ATTEMPTS + 1
= 4` complete connection attempts, each 1000 ms after the previous (all within
`ATTEMPT_WINDOW`): every attempt is admitted, because each successful connection
resets the attempt count to 0 (lines 91-97) before the next attempt increments
it — the final attempt is not rejected as rate-limited. -/
theorem four_valid_attempts_all_admitted :
    admitOutcomes [] RegState.empty 1 "alice"
      [(10, 100000, true), (11, 101000, true), (12, 102000, true), (13, 103000, true)] =
    [AdmitOutcome.admitted, AdmitOutcome.admitted, AdmitOutcome.admitted,
      AdmitOutcome.admitted] := by
  decide

/-- C7, counterexample.  An attempt whose token decodes, arriving while the
record is blocked and within `BLOCK_DURATION` of `lastAttempt` (at 105000, with
`lastAttempt = 100000`): it is rejected as rate-limited, and the record still
holds `lastAttempt = 100000` — the rejection at lines 31-33 returns before the
`lastAttempt = now` update, refuting "updated regardless of the outcome". -/
theorem blocked_rejection_leaves_record_untouched :
    (admitAttempt [(1, ⟨4, 100000, true⟩)] RegState.empty 1 "alice" 10 105000 true).outcome =
      AdmitOutcome.rejectedRateLimited ∧
    alookup (admitAttempt [(1, ⟨4, 100000, true⟩)] RegState.empty 1 "alice" 10 105000
      true).attempts 1 = some ⟨4, 100000, true⟩ := by
  constructor <;> decide

/-- Every branch of the rate limiter other than the already-blocked rejection
ends by storing the record with `lastAttempt = now` (lines 46-47 and 55-56). -/
theorem rateLimitCheck_sets_lastAttempt (attempts : List (Nat × AttemptRecord))
    (userId now : Nat)
    (hnb : ¬ (((alookup attempts userId).getD ⟨0, 0, false⟩).blocked ∧
      now - ((alookup attempts userId).getD ⟨0, 0, false⟩).lastAttempt < BLOCK_DURATION)) :
    ∃ r : AttemptRecord,
      alookup (rateLimitCheck attempts userId now).attempts userId = some r ∧
      r.lastAttempt = now := by
  simp only [rateLimitCheck, if_neg hnb]
  repeat' split
  all_goals exact ⟨_, alookup_aset_self _ _ _, rfl⟩

/-- C7, amended: for every connection attempt whose token decodes and which is
not rejected by the already-blocked branch (lines 31-33), the stored record ends
with `lastAttempt = now`, whatever the outcome — admitted (the success reset at
lines 91-97 keeps `lastAttempt`), rejected as newly rate-limited, or rejected
for an invalid persisted session.  Attempts that fail credential verification,
and attempts rejected while the record is blocked within `BLOCK_DURATION`,
leave the record untouched. -/
theorem lastAttempt_updated_unless_blocked_rejection
    (attempts : List (Nat × AttemptRecord)) (reg : RegState) (userId : Nat)
    (username : String) (socketId now : Nat) (sv : Bool)
    (hnb : ¬ (((alookup attempts userId).getD ⟨0, 0, false⟩).blocked ∧
      now - ((alookup attempts userId).getD ⟨0, 0, false⟩).lastAttempt < BLOCK_DURATION)) :
    ∃ r : AttemptRecord,
      alookup (admitAttempt attempts reg userId username socketId now sv).attempts userId =
        some r ∧ r.lastAttempt = now := by
  obtain ⟨rec, hrec, hlast⟩ := rateLimitCheck_sets_lastAttempt attempts userId now hnb
  unfold admitAttempt
  by_cases hl : (rateLimitCheck attempts userId now).limited = true
  · simp only [hl, if_true]
    exact ⟨rec, hrec, hlast⟩
  · simp only [Bool.not_eq_true] at hl
    simp only [hl, Bool.false_eq_true, if_false]
    cases sv
    · simp only [Bool.false_eq_true, if_false]
      exact ⟨rec, hrec, hlast⟩
    · simp only [if_true]
      unfold connectionReset
      rw [hrec]
      exact ⟨_, alookup_aset_self _ _ _, hlast⟩

/-- C7, amended, witness: a first attempt (empty record) at time 100000 that is
admitted stores `lastAttempt = 100000`. -/
theorem lastAttempt_updated_unless_blocked_rejection_witness :
    ∃ r : AttemptRecord,
      alookup (admitAttempt [] RegState.empty 1 "alice" 10 100000 true).attempts 1 =
        some r ∧ r.lastAttempt = 100000 :=
  lastAttempt_updated_unless_blocked_rejection [] RegState.empty 1 "alice" 10 100000 true
    (by decide)

/-- C5: a send_message event with well-formed fields whose sender is not a
participant (direct) or group member (group) of the conversation returns the
access-denied error to the sending connection only; the store — in particular
the messages table — is unchanged and no `new_message` fan-out is emitted. -/
theorem access_denied_leaves_store_unchanged
    (db : Db) (socketId userId convId : Nat) (content messageType : String)
    (replyTo : Option Nat) (hc : convId ≠ 0) (hcontent : content ≠ "")
    (hacc : hasConversationAccess db convId userId = false) :
    handleSendMessage db socketId userId (some convId) content messageType replyTo =
      (db, [EmitCall.direct socketId
        (Payload.errorMsg "Access denied to this conversation")]) := by
  have h1 : (convId == 0 || content == "") = false := by
    simp [hc, hcontent]
  unfold handleSendMessage
  dsimp only
  rw [h1]
  simp [hacc]

/-- C5, witness: user 7 is not a member of conversation 42 in the empty store:
sending there returns only the access-denied error and leaves the store as is. -/
theorem access_denied_leaves_store_unchanged_witness :
    handleSendMessage Db.empty 10 7 (some 42) "hi" "text" none =
      (Db.empty, [EmitCall.direct 10
        (Payload.errorMsg "Access denied to this conversation")]) :=
  access_denied_leaves_store_unchanged Db.empty 10 7 42 "hi" "text" none
    (by decide) (by decide) (by decide)

/-- C8: a well-formed message sent by an authorized sender to a conversation
room with exactly three subscribed connections — the sender among them —
produces exactly three delivered `new_message` events, one per subscribed
connection (including that of the sender, since line 273 uses `io.to`, not
`socket.to`), all carrying one and the same payload, whose `id` is the id
assigned by the insert and whose `createdAt` is the insert timestamp. -/
theorem fanout_three_subscribers_three_deliveries
    (db : Db) (subs : List (Nat × List Nat)) (socketId userId convId : Nat)
    (content messageType : String) (replyTo : Option Nat) (sender : SenderInfo)
    (s1 s2 s3 : Nat) (hc : convId ≠ 0) (hcontent : content ≠ "")
    (hacc : hasConversationAccess db convId userId = true)
    (hsender : alookup db.users userId = some sender)
    (hsubs : roomSubscribers subs convId = [s1, s2, s3])
    (hmem : socketId ∈ [s1, s2, s3]) :
    ∃ p : MessagePayload,
      deliveriesAll subs
        (handleSendMessage db socketId userId (some convId) content messageType replyTo).2 =
        [(s1, Payload.newMessage p), (s2, Payload.newMessage p),
          (s3, Payload.newMessage p)] ∧
      p.id = db.nextMessageId ∧ p.createdAt = db.clock ∧
      (socketId, Payload.newMessage p) ∈ deliveriesAll subs
        (handleSendMessage db socketId userId (some convId) content messageType replyTo).2 := by
  have h1 : (convId == 0 || content == "") = false := by
    simp [hc, hcontent]
  have hcalls :
      (handleSendMessage db socketId userId (some convId) content messageType replyTo).2 =
      [EmitCall.toRoom convId none (Payload.newMessage
        ⟨db.nextMessageId, convId, userId, sender.username, sender.displayName,
          sender.avatarUrl, content, messageType, replyTo, db.clock⟩)] := by
    unfold handleSendMessage
    dsimp only
    rw [h1]
    simp only [Bool.false_eq_true, if_false, hacc, if_true]
    rw [hsender]
  have hdel : deliveriesAll subs
      (handleSendMessage db socketId userId (some convId) content messageType replyTo).2 =
      [(s1, Payload.newMessage
          ⟨db.nextMessageId, convId, userId, sender.username, sender.displayName,
            sender.avatarUrl, content, messageType, replyTo, db.clock⟩),
        (s2, Payload.newMessage
          ⟨db.nextMessageId, convId, userId, sender.username, sender.displayName,
            sender.avatarUrl, content, messageType, replyTo, db.clock⟩),
        (s3, Payload.newMessage
          ⟨db.nextMessageId, convId, userId, sender.username, sender.displayName,
            sender.avatarUrl, content, messageType, replyTo, db.clock⟩)] := by
    rw [hcalls]
    simp only [deliveriesAll, deliveries, List.map_cons, List.map_nil]
    rw [hsubs]
    simp
  refine ⟨_, hdel, rfl, rfl, ?_⟩
  rw [hdel]
  simp only [List.mem_cons, List.not_mem_nil, or_false] at hmem
  rcases hmem with rfl | rfl | rfl
  · exact List.mem_cons_self _ _
  · exact List.mem_cons_of_mem _ (List.mem_cons_self _ _)
  · exact List.mem_cons_of_mem _ (List.mem_cons_of_mem _ (List.mem_cons_self _ _))

/-- C8, witness: in a store where user 1 participates in conversation 42 and
sockets 10, 11, 12 are subscribed to its room (socket 10 being the sender),
the send produces the three identical deliveries. -/
theorem fanout_three_subscribers_three_deliveries_witness :
    ∃ p : MessagePayload,
      deliveriesAll [(42, [10, 11, 12])]
        (handleSendMessage { Db.empty with
            conversations := [(42, ⟨none, 0⟩)]
            conversationParticipants := [(42, 1)]
            users := [(1, ⟨"alice", "Alice", "a.png"⟩)] }
          10 1 (some 42) "hi" "text" none).2 =
        [(10, Payload.newMessage p), (11, Payload.newMessage p),
          (12, Payload.newMessage p)] ∧
      p.id = 1 ∧ p.createdAt = 0 ∧
      (10, Payload.newMessage p) ∈ deliveriesAll [(42, [10, 11, 12])]
        (handleSendMessage { Db.empty with
            conversations := [(42, ⟨none, 0⟩)]
            conversationParticipants := [(42, 1)]
            users := [(1, ⟨"alice", "Alice", "a.png"⟩)] }
          10 1 (some 42) "hi" "text" none).2 :=
  fanout_three_subscribers_three_deliveries
    { Db.empty with
        conversations := [(42, ⟨none, 0⟩)]
        conversationParticipants := [(42, 1)]
        users := [(1, ⟨"alice", "Alice", "a.png"⟩)] }
    [(42, [10, 11, 12])] 10 1 42 "hi" "text" none ⟨"alice", "Alice", "a.png"⟩ 10 11 12
    (by decide) (by decide) (by decide) (by decide) (by decide) (by decide)

/-- When every marked id has a messages row, the read-marking loop runs to
completion (no foreign-key violation). -/
theorem insertReadsLoop_completes (msgs : List MessageRow) (userId : Nat) :
    ∀ (ids : List Nat) (reads : List (Nat × Nat)),
    (∀ m ∈ ids, msgs.any (fun r => r.id == m) = true) →
    (insertReadsLoop msgs reads userId ids).2 = true := by
  intro ids
  induction ids with
  | nil => intro reads _; rfl
  | cons a rest ih =>
    intro reads h
    have ha := h a (List.mem_cons_self _ _)
    simp only [insertReadsLoop, ha, if_true]
    exact ih _ (fun x hx => h x (List.mem_cons_of_mem _ hx))

/-- The loop never removes an existing read-marker row. -/
theorem mem_insertReadsLoop_of_mem (msgs : List MessageRow) (userId : Nat) :
    ∀ (ids : List Nat) (reads : List (Nat × Nat)) (x : Nat × Nat),
    x ∈ reads → x ∈ (insertReadsLoop msgs reads userId ids).1 := by
  intro ids
  induction ids with
  | nil => intro reads x hx; exact hx
  | cons a rest ih =>
    intro reads x hx
    unfold insertReadsLoop
    split
    · apply ih
      split
      · exact hx
      · exact List.mem_append_left _ hx
    · exact hx

/-- After a completed loop, every listed id has a marker for the marking user. -/
theorem mem_insertReadsLoop_self (msgs : List MessageRow) (userId : Nat) :
    ∀ (ids : List Nat) (reads : List (Nat × Nat)) (m : Nat),
    m ∈ ids → (∀ x ∈ ids, msgs.any (fun r => r.id == x) = true) →
    (m, userId) ∈ (insertReadsLoop msgs reads userId ids).1 := by
  intro ids
  induction ids with
  | nil => intro reads m hm _; simp at hm
  | cons a rest ih =>
    intro reads m hm hall
    have ha := hall a (List.mem_cons_self _ _)
    simp only [insertReadsLoop, ha, if_true]
    rcases List.mem_cons.mp hm with rfl | hmr
    · apply mem_insertReadsLoop_of_mem
      split
      · assumption
      · exact List.mem_append_right _ (List.mem_cons_self _ _)
    · exact ih _ m hmr (fun x hx => hall x (List.mem_cons_of_mem _ hx))

/-- The `ON CONFLICT DO NOTHING` upsert keeps the table free of duplicate
(message, user) rows. -/
theorem insertReadsLoop_nodup (msgs : List MessageRow) (userId : Nat) :
    ∀ (ids : List Nat) (reads : List (Nat × Nat)),
    reads.Nodup → (insertReadsLoop msgs reads userId ids).1.Nodup := by
  intro ids
  induction ids with
  | nil => intro reads h; exact h
  | cons a rest ih =>
    intro reads h
    unfold insertReadsLoop
    split
    · apply ih
      split
      · exact h
      · rename_i hnm
        refine List.Nodup.append h (List.nodup_singleton _) ?_
        intro y hy hy2
        rw [List.mem_singleton] at hy2
        subst hy2
        exact hnm hy
    · exact h

/-- Re-running the loop over ids that are all already marked changes nothing. -/
theorem insertReadsLoop_idempotent (msgs : List MessageRow) (userId : Nat) :
    ∀ (ids : List Nat) (reads : List (Nat × Nat)),
    (∀ m ∈ ids, (m, userId) ∈ reads) →
    (insertReadsLoop msgs reads userId ids).1 = reads := by
  intro ids
  induction ids with
  | nil => intro reads _; rfl
  | cons a rest ih =>
    intro reads h
    unfold insertReadsLoop
    split
    · rw [if_pos (h a (List.mem_cons_self _ _))]
      exact ih _ (fun x hx => h x (List.mem_cons_of_mem _ hx))
    · rfl

/-- Evaluation of `handleMarkMessagesRead` on well-formed input whose ids all
exist: the loop result is stored and one `messages_read` broadcast is sent to
the other subscribers of the conversation room. -/
theorem handleMarkMessagesRead_eq (db : Db) (socketId userId convId : Nat)
    (ids : List Nat) (hc : convId ≠ 0)
    (hall : ∀ m ∈ ids, db.messages.any (fun r => r.id == m) = true) :
    handleMarkMessagesRead db socketId userId (some convId) (some ids) =
      ({ db with messageReads := (insertReadsLoop db.messages db.messageReads userId ids).1 },
        [EmitCall.toRoom convId (some socketId)
          (Payload.messagesRead userId ids convId)]) := by
  have hc2 : (convId == 0) = false := by simp [hc]
  unfold handleMarkMessagesRead
  dsimp only
  rw [hc2]
  simp only [Bool.false_eq_true, if_false]
  rw [insertReadsLoop_completes db.messages userId ids db.messageReads hall]
  rfl

theorem rowCount_eq_zero : ∀ (reads : List (Nat × Nat)) (x : Nat × Nat),
    x ∉ reads → rowCount reads x = 0 := by
  intro reads
  induction reads with
  | nil => intro x _; rfl
  | cons a rest ih =>
    intro x h
    simp only [rowCount, List.filter_cons]
    have hax : (decide (a = x)) = false := by
      simp only [decide_eq_false_iff_not]
      intro hc
      exact h (hc ▸ List.mem_cons_self _ _)
    rw [hax]
    simp only [Bool.false_eq_true, if_false]
    exact ih x (fun hc => h (List.mem_cons_of_mem _ hc))

theorem rowCount_eq_one : ∀ (reads : List (Nat × Nat)) (x : Nat × Nat),
    reads.Nodup → x ∈ reads → rowCount reads x = 1 := by
  intro reads
  induction reads with
  | nil => intro x _ hx; simp at hx
  | cons a rest ih =>
    intro x hn hx
    rw [List.nodup_cons] at hn
    simp only [rowCount, List.filter_cons]
    rcases List.mem_cons.mp hx with rfl | hxr
    · rw [decide_eq_true rfl]
      simp only [if_true, List.length_cons]
      have h0 := rowCount_eq_zero rest x hn.1
      simp only [rowCount] at h0
      omega
    · have hax : (decide (a = x)) = false := by
        simp only [decide_eq_false_iff_not]
        intro hc
        subst hc
        exact hn.1 hxr
      rw [hax]
      simp only [Bool.false_eq_true, if_false]
      exact ih x hn.2 hxr

/-- C6: marking the same well-formed (channel, messageIds) input twice — all ids
having messages rows and the table satisfying its uniqueness invariant — leaves
exactly one read-marker row per (messageId, user) pair, the second call adds no
row (a silent no-op), and each of the two calls emits exactly one
`messages_read` broadcast carrying the full id list. -/
theorem mark_read_twice_one_row_two_broadcasts
    (db : Db) (socketId userId convId : Nat) (ids : List Nat) (hc : convId ≠ 0)
    (hnodup : db.messageReads.Nodup)
    (hall : ∀ m ∈ ids, db.messages.any (fun r => r.id == m) = true) :
    (∀ m ∈ ids, rowCount
      (handleMarkMessagesRead
        (handleMarkMessagesRead db socketId userId (some convId) (some ids)).1
        socketId userId (some convId) (some ids)).1.messageReads (m, userId) = 1) ∧
    (handleMarkMessagesRead
        (handleMarkMessagesRead db socketId userId (some convId) (some ids)).1
        socketId userId (some convId) (some ids)).1.messageReads =
      (handleMarkMessagesRead db socketId userId (some convId)
        (some ids)).1.messageReads ∧
    (handleMarkMessagesRead db socketId userId (some convId) (some ids)).2 =
      [EmitCall.toRoom convId (some socketId)
        (Payload.messagesRead userId ids convId)] ∧
    (handleMarkMessagesRead
        (handleMarkMessagesRead db socketId userId (some convId) (some ids)).1
        socketId userId (some convId) (some ids)).2 =
      (handleMarkMessagesRead db socketId userId (some convId) (some ids)).2 := by
  have h1 := handleMarkMessagesRead_eq db socketId userId convId ids hc hall
  have hmem : ∀ m ∈ ids, (m, userId) ∈
      (insertReadsLoop db.messages db.messageReads userId ids).1 :=
    fun m hm => mem_insertReadsLoop_self db.messages userId ids db.messageReads m hm hall
  have hn1 : (insertReadsLoop db.messages db.messageReads userId ids).1.Nodup :=
    insertReadsLoop_nodup db.messages userId ids db.messageReads hnodup
  have h2 := handleMarkMessagesRead_eq
    (handleMarkMessagesRead db socketId userId (some convId) (some ids)).1
    socketId userId convId ids hc (by rw [h1]; exact hall)
  have hid : (insertReadsLoop db.messages
      (insertReadsLoop db.messages db.messageReads userId ids).1 userId ids).1 =
      (insertReadsLoop db.messages db.messageReads userId ids).1 :=
    insertReadsLoop_idempotent db.messages userId ids _ hmem
  refine ⟨?_, ?_, ?_, ?_⟩
  · intro m hm
    rw [h2, h1]
    dsimp only
    rw [hid]
    exact rowCount_eq_one _ _ hn1 (hmem m hm)
  · rw [h2, h1]
    dsimp only
    rw [hid]
  · rw [h1]
  · rw [h2, h1]

/-- C6, witness: marking message 5 of conversation 42 twice from an empty
read-marker table. -/
theorem mark_read_twice_one_row_two_broadcasts_witness :
    (∀ m ∈ [5], rowCount
      (handleMarkMessagesRead
        (handleMarkMessagesRead
          { Db.empty with messages := [⟨5, 42, 1, "hi", "text", none, 0⟩] }
          10 2 (some 42) (some [5])).1
        10 2 (some 42) (some [5])).1.messageReads (m, 2) = 1) ∧
    (handleMarkMessagesRead
        (handleMarkMessagesRead
          { Db.empty with messages := [⟨5, 42, 1, "hi", "text", none, 0⟩] }
          10 2 (some 42) (some [5])).1
        10 2 (some 42) (some [5])).1.messageReads =
      (handleMarkMessagesRead
        { Db.empty with messages := [⟨5, 42, 1, "hi", "text", none, 0⟩] }
        10 2 (some 42) (some [5])).1.messageReads ∧
    (handleMarkMessagesRead
        { Db.empty with messages := [⟨5, 42, 1, "hi", "text", none, 0⟩] }
        10 2 (some 42) (some [5])).2 =
      [EmitCall.toRoom 42 (some 10) (Payload.messagesRead 2 [5] 42)] ∧
    (handleMarkMessagesRead
        (handleMarkMessagesRead
          { Db.empty with messages := [⟨5, 42, 1, "hi", "text", none, 0⟩] }
          10 2 (some 42) (some [5])).1
        10 2 (some 42) (some [5])).2 =
      (handleMarkMessagesRead
        { Db.empty with messages := [⟨5, 42, 1, "hi", "text", none, 0⟩] }
        10 2 (some 42) (some [5])).2 :=
  mark_read_twice_one_row_two_broadcasts
    { Db.empty with messages := [⟨5, 42, 1, "hi", "text", none, 0⟩] }
    10 2 42 [5] (by decide) (by decide) (by decide)

/-- C10: `handleMarkMessagesRead` performs no membership or authorization
check.  First conjunct: for every store and well-formed input whose ids have
messages rows — with no assumption whatsoever about membership of the marking
user — a read marker is recorded for every listed id under the
user of the connection and the `messages_read` event is broadcast to the other
subscribers of the named room with the id list verbatim.  Second conjunct: the
result is unchanged under arbitrary replacement of the membership tables
(`conversation_participants`, `group_members`). -/
theorem mark_read_ignores_membership :
    (∀ (db : Db) (socketId userId convId : Nat) (ids : List Nat),
      convId ≠ 0 → (∀ m ∈ ids, db.messages.any (fun r => r.id == m) = true) →
      (∀ m ∈ ids, (m, userId) ∈
        (handleMarkMessagesRead db socketId userId (some convId)
          (some ids)).1.messageReads) ∧
      (handleMarkMessagesRead db socketId userId (some convId) (some ids)).2 =
        [EmitCall.toRoom convId (some socketId)
          (Payload.messagesRead userId ids convId)]) ∧
    (∀ (db : Db) (parts parts2 gms gms2 : List (Nat × Nat)) (socketId userId : Nat)
      (convId : Option Nat) (ids : Option (List Nat)),
      (handleMarkMessagesRead
          { db with conversationParticipants := parts, groupMembers := gms }
          socketId userId convId ids).1.messageReads =
        (handleMarkMessagesRead
          { db with conversationParticipants := parts2, groupMembers := gms2 }
          socketId userId convId ids).1.messageReads ∧
      (handleMarkMessagesRead
          { db with conversationParticipants := parts, groupMembers := gms }
          socketId userId convId ids).2 =
        (handleMarkMessagesRead
          { db with conversationParticipants := parts2, groupMembers := gms2 }
          socketId userId convId ids).2) := by
  constructor
  · intro db socketId userId convId ids hc hall
    rw [handleMarkMessagesRead_eq db socketId userId convId ids hc hall]
    exact ⟨fun m hm =>
      mem_insertReadsLoop_self db.messages userId ids db.messageReads m hm hall, rfl⟩
  · intro db parts parts2 gms gms2 socketId userId convId ids
    cases convId with
    | none => exact ⟨rfl, rfl⟩
    | some c =>
      cases ids with
      | none => exact ⟨rfl, rfl⟩
      | some l =>
        by_cases hc : (c == 0) = true
        · constructor
          · simp only [handleMarkMessagesRead, hc, if_true]
          · simp only [handleMarkMessagesRead, hc, if_true]
        · simp only [Bool.not_eq_true] at hc
          constructor
          · simp only [handleMarkMessagesRead, hc, Bool.false_eq_true, if_false]
            split
            · rfl
            · rfl
          · simp only [handleMarkMessagesRead, hc, Bool.false_eq_true, if_false]
            split
            · rfl
            · rfl

/-- C10, witness: user 2, with empty membership tables (so certainly not a
member of conversation 42 or of any group), marks message 5: the marker is
recorded and the broadcast is emitted; and the handler output is identical
whether the membership tables are empty or name user 2. -/
theorem mark_read_ignores_membership_witness :
    ((∀ m ∈ [5], (m, 2) ∈
        (handleMarkMessagesRead
          { Db.empty with messages := [⟨5, 42, 1, "hi", "text", none, 0⟩] }
          10 2 (some 42) (some [5])).1.messageReads) ∧
      (handleMarkMessagesRead
        { Db.empty with messages := [⟨5, 42, 1, "hi", "text", none, 0⟩] }
        10 2 (some 42) (some [5])).2 =
        [EmitCall.toRoom 42 (some 10) (Payload.messagesRead 2 [5] 42)]) ∧
    ((handleMarkMessagesRead
        { Db.empty with conversationParticipants := [], groupMembers := [] }
        10 2 (some 42) (some [5])).1.messageReads =
      (handleMarkMessagesRead
        { Db.empty with conversationParticipants := [(42, 2)], groupMembers := [(7, 2)] }
        10 2 (some 42) (some [5])).1.messageReads ∧
      (handleMarkMessagesRead
        { Db.empty with conversationParticipants := [], groupMembers := [] }
        10 2 (some 42) (some [5])).2 =
      (handleMarkMessagesRead
        { Db.empty with conversationParticipants := [(42, 2)], groupMembers := [(7, 2)] }
        10 2 (some 42) (some [5])).2) :=
  ⟨mark_read_ignores_membership.1
      { Db.empty with messages := [⟨5, 42, 1, "hi", "text", none, 0⟩] }
      10 2 42 [5] (by decide) (by decide),
    mark_read_ignores_membership.2 Db.empty [] [(42, 2)] [] [(7, 2)] 10 2
      (some 42) (some [5])⟩

theorem rateLimitCheck_fresh {attempts : List (Nat × AttemptRecord)} {userId now : Nat}
    (h : alookup attempts userId = none) (hw : ATTEMPT_WINDOW ≤ now) :
    rateLimitCheck attempts userId now = ⟨aset attempts userId ⟨1, now, false⟩, false⟩ := by
  have hnw : ¬ (now - (0 : Nat) < ATTEMPT_WINDOW) := by omega
  simp only [rateLimitCheck, h, Option.getD_none, Bool.false_eq_true, false_and, if_false,
    if_neg hnw]

theorem rateLimitCheck_increment {attempts : List (Nat × AttemptRecord)}
    {userId now c tl : Nat} (h : alookup attempts userId = some ⟨c, tl, false⟩)
    (hw : now - tl < ATTEMPT_WINDOW) (hmax : c + 1 ≤ MAX_ATTEMPTS) :
    rateLimitCheck attempts userId now =
      ⟨aset attempts userId ⟨c + 1, now, false⟩, false⟩ := by
  have hnmax : ¬ (MAX_ATTEMPTS < c + 1) := by omega
  simp only [rateLimitCheck, h, Option.getD_some, Bool.false_eq_true, false_and, if_false,
    if_pos hw, if_neg hnmax]

theorem rateLimitCheck_trip {attempts : List (Nat × AttemptRecord)}
    {userId now c tl : Nat} (h : alookup attempts userId = some ⟨c, tl, false⟩)
    (hw : now - tl < ATTEMPT_WINDOW) (hmax : MAX_ATTEMPTS < c + 1) :
    rateLimitCheck attempts userId now =
      ⟨aset attempts userId ⟨c + 1, now, true⟩, true⟩ := by
  simp only [rateLimitCheck, h, Option.getD_some, Bool.false_eq_true, false_and, if_false,
    if_pos hw, if_pos hmax]

theorem rateLimitCheck_block_expired {attempts : List (Nat × AttemptRecord)}
    {userId now c tl : Nat} (h : alookup attempts userId = some ⟨c, tl, true⟩)
    (hb : BLOCK_DURATION ≤ now - tl) :
    rateLimitCheck attempts userId now =
      ⟨aset attempts userId ⟨1, now, false⟩, false⟩ := by
  have hnb : ¬ ((true : Bool) = true ∧ now - tl < BLOCK_DURATION) := by
    simp only [true_and]
    omega
  have hw : ¬ (now - tl < ATTEMPT_WINDOW) := by
    have : ATTEMPT_WINDOW ≤ BLOCK_DURATION := by decide
    omega
  simp only [rateLimitCheck, h, Option.getD_some, if_neg hnb, true_and, if_pos hb,
    if_neg hw]
  rw [if_neg (show ¬ now - tl < BLOCK_DURATION by omega)]

theorem admitAttempt_invalid_session {attempts atts2 : List (Nat × AttemptRecord)}
    {userId now : Nat} (reg : RegState) (username : String) (socketId : Nat)
    (h : rateLimitCheck attempts userId now = ⟨atts2, false⟩) :
    admitAttempt attempts reg userId username socketId now false =
      ⟨.rejectedInvalidSession, atts2, evictExisting reg userId socketId⟩ := by
  simp only [admitAttempt, h, Bool.false_eq_true, if_false]

theorem admitAttempt_admitted {attempts atts2 : List (Nat × AttemptRecord)}
    {userId now : Nat} (reg : RegState) (username : String) (socketId : Nat)
    (h : rateLimitCheck attempts userId now = ⟨atts2, false⟩) :
    admitAttempt attempts reg userId username socketId now true =
      ⟨.admitted, connectionReset atts2 userId,
        registerConn (evictExisting reg userId socketId) userId socketId username⟩ := by
  simp only [admitAttempt, h, Bool.false_eq_true, if_false, if_true]

theorem admitAttempt_rate_limited {attempts atts2 : List (Nat × AttemptRecord)}
    {userId now : Nat} (reg : RegState) (username : String) (socketId : Nat) (sv : Bool)
    (h : rateLimitCheck attempts userId now = ⟨atts2, true⟩) :
    admitAttempt attempts reg userId username socketId now sv =
      ⟨.rejectedRateLimited, atts2, reg⟩ := by
  simp only [admitAttempt, h, if_true]

/-- C3, amended.  Admitted attempts clear the backoff state (lines 91-97), so a
user whose attempts succeed is never rate-limited; the attempts that build the
count must be ones that pass the rate limiter but are not admitted.  For a user
whose token decodes but whose persisted-session check fails: four such attempts,
each within `ATTEMPT_WINDOW` of the previous, end with the fourth rejected as
rate-limited and the record blocked with `lastAttempt = t4`; once
`BLOCK_DURATION` has elapsed since that `lastAttempt`, a subsequent attempt with
a valid session clears the block, resets the count, and is admitted. -/
theorem rejected_attempts_rate_limited_then_block_expires
    (reg : RegState) (userId : Nat) (username : String)
    (s1 s2 s3 s4 s5 t1 t2 t3 t4 t5 : Nat)
    (hw1 : ATTEMPT_WINDOW ≤ t1) (hw2 : t2 - t1 < ATTEMPT_WINDOW)
    (hw3 : t3 - t2 < ATTEMPT_WINDOW) (hw4 : t4 - t3 < ATTEMPT_WINDOW)
    (hb : BLOCK_DURATION ≤ t5 - t4) :
    admitOutcomes [] reg userId username
      [(s1, t1, false), (s2, t2, false), (s3, t3, false), (s4, t4, false),
        (s5, t5, true)] =
      [AdmitOutcome.rejectedInvalidSession, AdmitOutcome.rejectedInvalidSession,
        AdmitOutcome.rejectedInvalidSession, AdmitOutcome.rejectedRateLimited,
        AdmitOutcome.admitted] ∧
    alookup (admitFold [] reg userId username
      [(s1, t1, false), (s2, t2, false), (s3, t3, false), (s4, t4, false)]).1 userId =
      some ⟨4, t4, true⟩ ∧
    alookup (admitFold [] reg userId username
      [(s1, t1, false), (s2, t2, false), (s3, t3, false), (s4, t4, false),
        (s5, t5, true)]).1 userId = some ⟨0, t5, false⟩ := by
  have hr1 : rateLimitCheck [] userId t1 =
      ⟨aset [] userId ⟨1, t1, false⟩, false⟩ :=
    rateLimitCheck_fresh rfl hw1
  have ha1 := admitAttempt_invalid_session reg username s1 hr1
  have hl1 : alookup (aset ([] : List (Nat × AttemptRecord)) userId ⟨1, t1, false⟩)
      userId = some ⟨1, t1, false⟩ := alookup_aset_self _ _ _
  have hr2 := rateLimitCheck_increment hl1 hw2 (by decide)
  have ha2 := admitAttempt_invalid_session (evictExisting reg userId s1) username s2 hr2
  have hl2 : alookup (aset (aset ([] : List (Nat × AttemptRecord)) userId ⟨1, t1, false⟩)
      userId ⟨1 + 1, t2, false⟩) userId = some ⟨1 + 1, t2, false⟩ :=
    alookup_aset_self _ _ _
  have hr3 := rateLimitCheck_increment hl2 hw3 (by decide)
  have ha3 := admitAttempt_invalid_session
    (evictExisting (evictExisting reg userId s1) userId s2) username s3 hr3
  have hl3 : alookup (aset (aset (aset ([] : List (Nat × AttemptRecord)) userId
      ⟨1, t1, false⟩) userId ⟨1 + 1, t2, false⟩) userId ⟨1 + 1 + 1, t3, false⟩) userId =
      some ⟨1 + 1 + 1, t3, false⟩ := alookup_aset_self _ _ _
  have hr4 := rateLimitCheck_trip hl3 hw4 (by decide)
  have ha4 := admitAttempt_rate_limited
    (evictExisting (evictExisting (evictExisting reg userId s1) userId s2) userId s3)
    username s4 false hr4
  have hl4 : alookup (aset (aset (aset (aset ([] : List (Nat × AttemptRecord)) userId
      ⟨1, t1, false⟩) userId ⟨1 + 1, t2, false⟩) userId ⟨1 + 1 + 1, t3, false⟩) userId
      ⟨1 + 1 + 1 + 1, t4, true⟩) userId = some ⟨1 + 1 + 1 + 1, t4, true⟩ :=
    alookup_aset_self _ _ _
  have hr5 := rateLimitCheck_block_expired hl4 hb
  have ha5 := admitAttempt_admitted
    (evictExisting (evictExisting (evictExisting reg userId s1) userId s2) userId s3)
    username s5 hr5
  refine ⟨?_, ?_, ?_⟩
  · simp only [admitOutcomes]
    rw [ha1]; dsimp only
    rw [ha2]; dsimp only
    rw [ha3]; dsimp only
    rw [ha4]; dsimp only
    rw [ha5]
  · simp only [admitFold]
    rw [ha1]; dsimp only
    rw [ha2]; dsimp only
    rw [ha3]; dsimp only
    rw [ha4]; dsimp only
    exact alookup_aset_self _ _ _
  · simp only [admitFold]
    rw [ha1]; dsimp only
    rw [ha2]; dsimp only
    rw [ha3]; dsimp only
    rw [ha4]; dsimp only
    rw [ha5]; dsimp only
    have hres : connectionReset (aset (aset (aset (aset (aset
        ([] : List (Nat × AttemptRecord)) userId ⟨1, t1, false⟩) userId
        ⟨1 + 1, t2, false⟩) userId ⟨1 + 1 + 1, t3, false⟩) userId
        ⟨1 + 1 + 1 + 1, t4, true⟩) userId ⟨1, t5, false⟩) userId =
        aset (aset (aset (aset (aset (aset ([] : List (Nat × AttemptRecord)) userId
        ⟨1, t1, false⟩) userId ⟨1 + 1, t2, false⟩) userId ⟨1 + 1 + 1, t3, false⟩) userId
        ⟨1 + 1 + 1 + 1, t4, true⟩) userId ⟨1, t5, false⟩) userId ⟨0, t5, false⟩ := by
      simp only [connectionReset, alookup_aset_self]
    rw [hres]
    exact alookup_aset_self _ _ _

/-- C3, amended, witness: the concrete schedule 100000, 101000, 102000, 103000
(session-invalid) and 113001 (session-valid). -/
theorem rejected_attempts_rate_limited_then_block_expires_witness :
    admitOutcomes [] RegState.empty 1 "alice"
      [(10, 100000, false), (11, 101000, false), (12, 102000, false),
        (13, 103000, false), (14, 113001, true)] =
      [AdmitOutcome.rejectedInvalidSession, AdmitOutcome.rejectedInvalidSession,
        AdmitOutcome.rejectedInvalidSession, AdmitOutcome.rejectedRateLimited,
        AdmitOutcome.admitted] ∧
    alookup (admitFold [] RegState.empty 1 "alice"
      [(10, 100000, false), (11, 101000, false), (12, 102000, false),
        (13, 103000, false)]).1 1 = some ⟨4, 103000, true⟩ ∧
    alookup (admitFold [] RegState.empty 1 "alice"
      [(10, 100000, false), (11, 101000, false), (12, 102000, false),
        (13, 103000, false), (14, 113001, true)]).1 1 = some ⟨0, 113001, false⟩ :=
  rejected_attempts_rate_limited_then_block_expires RegState.empty 1 "alice"
    10 11 12 13 14 100000 101000 102000 103000 113001
    (by decide) (by decide) (by decide) (by decide) (by decide)

/-- C4, code bug.  User 1 holds two live registered connections (sockets 10 and
20, reachable by the concurrent-handshake interleaving) and user 2, an accepted
contact of user 1, is connected on socket 30.  When socket 10 disconnects, the
handler deletes the `connectedUsers` entry of user 1 unconditionally and then
computes `hasOtherConnections` by searching the remaining socket-id values for
the user id, which never finds the surviving connection: the status is flipped
to offline and broadcast to user 2 although socket 20 of user 1 remains
registered.  The line 178 comment says the status should only change when no
other connection of the user exists. -/
theorem offline_broadcast_despite_remaining_connection :
    (let reg := (runLoop LoopState.start
        [LoopEvent.mid 1 "alice" 10 100000, LoopEvent.mid 1 "alice" 20 100050,
         LoopEvent.fin 10 true, LoopEvent.fin 20 true,
         LoopEvent.mid 2 "bob" 30 100100, LoopEvent.fin 30 true]).reg
     let db : Db := { Db.empty with
       userStatus := [(1, "online"), (2, "online")]
       contacts := [⟨1, 2, "accepted"⟩] }
     let r := disconnectHandler db reg 10 1
     alookup r.2.1.userSockets 20 = some ⟨1, "alice"⟩ ∧
     alookup r.1.userStatus 1 = some "offline" ∧
     r.2.2 = [EmitCall.direct 30 (Payload.statusChange 1 "offline")]) := by
  refine ⟨by decide, by decide, by decide⟩

end WeUnion
